import Mathlib

/-
Shallow embedding of the ledger and proportional-allocation engine of a
pooled-capital fund manager (a Flask + SQLite application, app.py).

Modelling conventions:
  - Monetary amounts (SQLite REAL) are modelled as rationals, so the
    conservation sums below are exact; exact equality implies the
    one-in-a-million absolute tolerance the specification allows.
  - Calendar dates (TEXT columns in ISO form, compared lexicographically
    by SQL, which on ISO dates coincides with calendar order) are
    modelled as naturals with the usual order.
  - A database state is the contents of the four tables read and written
    by the allocation engine: contributors, transactions (the ledger),
    trades and withdrawal_requests.  Row ids of ledger rows and trade
    rows are implicit in list position; the autoincrement id of a
    withdrawal request is an explicit field because requests are looked
    up and updated by id.
  - Each route handler is modelled from the point where its input
    validation has succeeded (the validation code converts form strings
    and rejects malformed input before any state change).
-/

/-- Row of the contributors table (id, name, type, login_username). -/
structure Contributor where
  id : Nat
  name : String
  ctype : String
  login_username : Option String
deriving DecidableEq

/-- Row of the transactions table: one ledger entry, owned by one
contributor.  The column named type in the schema is txn_type here. -/
structure Txn where
  contributor_id : Nat
  date : Nat
  txn_type : String
  amount : ℚ
  asset : String
  allocated_charges : ℚ
  comment : String
deriving DecidableEq

/-- Row of the trades table (fund-level trading outcome with derived
commission fields; the extended execution-detail columns written by
update_trade_details do not enter any allocation and are omitted). -/
structure Trade where
  trade_date : Nat
  asset : String
  pnl : ℚ
  charges : ℚ
  commission : ℚ
  net_pnl : ℚ
  net_profit_after_commission : ℚ
  comment : String
deriving DecidableEq

/-- Row of the withdrawal_requests table. -/
structure WithdrawalRequest where
  id : Nat
  contributor_id : Nat
  request_date : Nat
  amount : ℚ
  comment : String
  status : String
  approved_date : Option Nat
  admin_comment : Option String
deriving DecidableEq

/-- The durable store: the four tables the allocation engine touches. -/
structure DBState where
  contributors : List Contributor
  transactions : List Txn
  trades : List Trade
  requests : List WithdrawalRequest
deriving DecidableEq

/-- DatabaseManager.get_eligible_balance: SELECT SUM(amount) FROM
transactions WHERE contributor_id=? AND date<=?; SQL SUM of no rows is
NULL, coded back to 0, which the empty-list sum gives directly. -/
def get_eligible_balance (s : DBState) (cid : Nat) (d : Nat) : ℚ :=
  ((s.transactions.filter
      (fun t => decide (t.contributor_id = cid ∧ t.date ≤ d))).map Txn.amount).sum

/-- DatabaseManager.get_total_fund: SELECT SUM(amount) FROM transactions
WHERE date<=?. -/
def get_total_fund (s : DBState) (d : Nat) : ℚ :=
  ((s.transactions.filter (fun t => decide (t.date ≤ d))).map Txn.amount).sum

/-- Lines 735 to 737 of the record_trade route: the Trade row the route
persists, with its derived commission fields.  The literal 0.3 of the
source is the rational 3 / 10. -/
def recordedTrade (d : Nat) (a : String) (pnl charges : ℚ) (cm : String) : Trade :=
  let net_pnl := pnl - charges
  let commission := if 0 < net_pnl then (3 / 10) * net_pnl else 0
  { trade_date := d, asset := a, pnl := pnl, charges := charges,
    commission := commission, net_pnl := net_pnl,
    net_profit_after_commission := net_pnl - commission, comment := cm }

/-- Lines 1287 to 1289 of the edit_trade route: the replacement Trade
row, computed by the same formulas as recordedTrade. -/
def editedTrade (d : Nat) (a : String) (pnl charges : ℚ) (cm : String) : Trade :=
  let net_pnl := pnl - charges
  let commission := if 0 < net_pnl then (3 / 10) * net_pnl else 0
  { trade_date := d, asset := a, pnl := pnl, charges := charges,
    commission := commission, net_pnl := net_pnl,
    net_profit_after_commission := net_pnl - commission, comment := cm }

/-- The edit_trade route after validation: DatabaseManager.update_trade
overwrites the row with the given id in place (position in the trades
list stands for the row id); an id matching no row updates nothing. -/
def edit_trade (s : DBState) (tid : Nat) (d : Nat) (a : String)
    (pnl charges : ℚ) (cm : String) : DBState :=
  { s with trades := s.trades.set tid (editedTrade d a pnl charges cm) }

/-- Lines 727 to 734 of the record_trade route: derive the P&L from the
execution fields when it is not given directly.  Returns none exactly
when the route redirects with an input error (side not long or short
when deriving, or neither a P&L nor a full execution triple given). -/
def compute_trade_pnl (pnl : Option ℚ) (side : String)
    (quantity entry_price exit_price : Option ℚ) : Option ℚ :=
  match pnl, quantity, entry_price, exit_price with
  | some p, _, _, _ => some p
  | none, some q, some en, some ex =>
      if side = "long" then some ((ex - en) * q)
      else if side = "short" then some ((en - ex) * q)
      else none
  | _, _, _, _ => none

/-- Lines 753 to 760 of the record_trade route: each contributor paired
with its eligible balance as of the trade date (the Python dict keyed by
contributor id, in contributor order). -/
def trade_eligible_pairs (s : DBState) (d : Nat) : List (Nat × ℚ) :=
  s.contributors.map (fun c => (c.id, get_eligible_balance s c.id d))

/-- Running total accumulated alongside trade_eligible_pairs. -/
def trade_total_eligible (s : DBState) (d : Nat) : ℚ :=
  ((trade_eligible_pairs s d).map Prod.snd).sum

/-- Lines 735 to 769 of the record_trade route, from the point where all
inputs are validated and the P&L is known.  The Trade row is persisted
first (line 738); eligibility is then read from the transactions table,
which the Trade insert does not touch, so it is read off the input
state.  The Bool is true when the fan-out ran, false when the route
aborted with the no-eligible-funds error; the abort leaves the already
inserted Trade row in place. -/
def record_trade (s : DBState) (d : Nat) (a : String) (pnl charges : ℚ)
    (cm : String) : DBState × Bool :=
  let tr := recordedTrade d a pnl charges cm
  let s1 : DBState := { s with trades := s.trades ++ [tr] }
  let total_eligible := trade_total_eligible s d
  if total_eligible ≤ 0 then (s1, false)
  else
    let newTxns := (trade_eligible_pairs s d).map (fun p =>
      { contributor_id := p.1, date := d, txn_type := "trade",
        amount := (p.2 / total_eligible) * tr.net_profit_after_commission,
        asset := a,
        allocated_charges := (p.2 / total_eligible) * charges,
        comment := cm : Txn })
    ({ s1 with transactions := s1.transactions ++ newTxns }, true)

/-- Lines 794 to 806 of the withdraw_money route, after validation: the
admin-initiated fund-wide withdrawal.  The Bool is true when the fan-out
ran, false when the route aborted with the no-funds-available error. -/
def withdraw_money (s : DBState) (d : Nat) (amt : ℚ) (cm : String) :
    DBState × Bool :=
  let total_fund := get_total_fund s d
  if total_fund ≤ 0 then (s, false)
  else
    let newTxns := s.contributors.map (fun c =>
      let eligible := get_eligible_balance s c.id d
      let share := if 0 < total_fund then (eligible / total_fund) * amt else 0
      { contributor_id := c.id, date := d, txn_type := "withdrawal",
        amount := -share, asset := "", allocated_charges := 0,
        comment := cm : Txn })
    ({ s with transactions := s.transactions ++ newTxns }, true)

/-- The SET clause of DatabaseManager.update_withdrawal_request: rewrite
the status, resolution date and admin comment of one request row. -/
def resolve_request_row (r : WithdrawalRequest) (status : String)
    (approved_date : Nat) (admin_comment : String) : WithdrawalRequest :=
  { r with
    status := status
    approved_date := some approved_date
    admin_comment := some admin_comment }

/-- DatabaseManager.update_withdrawal_request: UPDATE withdrawal_requests
SET status, approved_date, admin_comment WHERE id=?; a request id
matching no row updates nothing. -/
def update_withdrawal_request (s : DBState) (request_id : Nat)
    (status : String) (approved_date : Nat) (admin_comment : String) : DBState :=
  { s with requests := s.requests.map (fun r =>
      if r.id = request_id then resolve_request_row r status approved_date admin_comment
      else r) }

/-- Lines 836 to 848 of the approve_withdrawal route: mark the request
approved, re-read it by id (the source scans the request list and takes
the first row with the matching id), and, when found, append the single
withdrawal ledger entry for the requesting contributor.  A missing id
falls through without error. -/
def approve_withdrawal (s : DBState) (req_id : Nat) (today : Nat)
    (admin_comment : String) : DBState :=
  let s1 := update_withdrawal_request s req_id "approved" today admin_comment
  match s1.requests.find? (fun r => r.id == req_id) with
  | some req =>
      { s1 with transactions := s1.transactions ++
          [{ contributor_id := req.contributor_id, date := today,
             txn_type := "withdrawal", amount := -req.amount, asset := "",
             allocated_charges := 0, comment := "Withdrawal Approved" }] }
  | none => s1

/-- Lines 857 to 862 of the reject_withdrawal route: mark the request
rejected; no ledger entry is written. -/
def reject_withdrawal (s : DBState) (req_id : Nat) (today : Nat)
    (admin_comment : String) : DBState :=
  update_withdrawal_request s req_id "rejected" today admin_comment

/-- Sum of a proportional split: each element contributes its weight
divided by the common denominator, times the distributed amount. -/
theorem sum_map_ratio {α : Type} (l : List α) (f : α → ℚ) (T X : ℚ) :
    (l.map (fun x => (f x / T) * X)).sum = ((l.map f).sum / T) * X := by
  induction l with
  | nil => simp
  | cons a l ih => simp [ih, add_div, add_mul]

/-- C1: when a trade allocation reaches the fan-out (total eligible
balance positive), the appended trade entries sum exactly to the net
profit after commission and the appended allocated charges sum exactly
to the trade charges; exact rational equality implies the stated
floating-point tolerance of 1e-6. -/
theorem record_trade_conservation (s : DBState) (d : Nat) (a : String)
    (pnl charges : ℚ) (cm : String) (h : 0 < trade_total_eligible s d) :
    (record_trade s d a pnl charges cm).2 = true ∧
    (((record_trade s d a pnl charges cm).1.transactions.drop
        s.transactions.length).map Txn.amount).sum
      = (recordedTrade d a pnl charges cm).net_profit_after_commission ∧
    (((record_trade s d a pnl charges cm).1.transactions.drop
        s.transactions.length).map Txn.allocated_charges).sum
      = charges := by
  have hne : trade_total_eligible s d ≠ 0 := ne_of_gt h
  have hif : ¬ trade_total_eligible s d ≤ 0 := not_le.mpr h
  have hdrop : (record_trade s d a pnl charges cm).1.transactions.drop
      s.transactions.length
      = (trade_eligible_pairs s d).map (fun p =>
          { contributor_id := p.1, date := d, txn_type := "trade",
            amount := (p.2 / trade_total_eligible s d) *
              (recordedTrade d a pnl charges cm).net_profit_after_commission,
            asset := a,
            allocated_charges := (p.2 / trade_total_eligible s d) * charges,
            comment := cm : Txn }) := by
    simp [record_trade, hif, List.drop_left]
  refine ⟨by simp [record_trade, hif], ?_, ?_⟩
  · rw [hdrop, List.map_map]
    have hs := sum_map_ratio (trade_eligible_pairs s d) Prod.snd
      (trade_total_eligible s d)
      ((recordedTrade d a pnl charges cm).net_profit_after_commission)
    simp only [Function.comp_def]
    rw [hs, show ((trade_eligible_pairs s d).map Prod.snd).sum
        = trade_total_eligible s d from rfl, div_self hne, one_mul]
  · rw [hdrop, List.map_map]
    have hs := sum_map_ratio (trade_eligible_pairs s d) Prod.snd
      (trade_total_eligible s d) charges
    simp only [Function.comp_def]
    rw [hs, show ((trade_eligible_pairs s d).map Prod.snd).sum
        = trade_total_eligible s d from rfl, div_self hne, one_mul]

/-- Concrete two-contributor store used by witnesses: deposits of 600
and 400 on day 1 and a pending withdrawal request of 150. -/
def Wstate : DBState :=
  { contributors :=
      [ { id := 1, name := "A", ctype := "individual", login_username := none },
        { id := 2, name := "B", ctype := "individual", login_username := none } ],
    transactions :=
      [ { contributor_id := 1, date := 1, txn_type := "deposit", amount := 600,
          asset := "", allocated_charges := 0, comment := "Initial Deposit" },
        { contributor_id := 2, date := 1, txn_type := "deposit", amount := 400,
          asset := "", allocated_charges := 0, comment := "Initial Deposit" } ],
    trades := [],
    requests :=
      [ { id := 1, contributor_id := 1, request_date := 3, amount := 150,
          comment := "", status := "pending", approved_date := none,
          admin_comment := none } ] }

/-- Witness for C1 at a concrete store: total eligible balance 1000, a
trade with gross 1100 and charges 100 distributes exactly 700. -/
theorem record_trade_conservation_witness :
    0 < trade_total_eligible Wstate 2 ∧
    ((record_trade Wstate 2 "NIFTY" 1100 100 "").2 = true ∧
      (((record_trade Wstate 2 "NIFTY" 1100 100 "").1.transactions.drop
          Wstate.transactions.length).map Txn.amount).sum
        = (recordedTrade 2 "NIFTY" 1100 100 "").net_profit_after_commission ∧
      (((record_trade Wstate 2 "NIFTY" 1100 100 "").1.transactions.drop
          Wstate.transactions.length).map Txn.allocated_charges).sum
        = 100) :=
  ⟨by norm_num [trade_total_eligible, trade_eligible_pairs, get_eligible_balance,
      Wstate],
    record_trade_conservation Wstate 2 "NIFTY" 1100 100 ""
      (by norm_num [trade_total_eligible, trade_eligible_pairs,
        get_eligible_balance, Wstate])⟩

/-- Empty store: no contributors, hence zero total eligible balance. -/
def S0 : DBState :=
  { contributors := [], transactions := [], trades := [], requests := [] }

/-- C2 counterexample: on the empty store the allocation aborts with the
no-eligible-funds error and writes no ledger entries, yet the Trade row
has been persisted (the trades table is no longer empty), refuting the
clause that the Trade record is not persisted. -/
theorem record_trade_abort_counterexample :
    (record_trade S0 1 "GOLD" 10 0 "").2 = false ∧
    (record_trade S0 1 "GOLD" 10 0 "").1.transactions = [] ∧
    (record_trade S0 1 "GOLD" 10 0 "").1.trades ≠ [] := by
  refine ⟨rfl, rfl, fun h => ?_⟩
  rw [show (record_trade S0 1 "GOLD" 10 0 "").1.trades
      = [recordedTrade 1 "GOLD" 10 0 ""] from rfl] at h
  exact List.cons_ne_nil _ _ h

/-- C2 amended: when the total eligible balance as of the trade date is
not positive, the allocation aborts with the no-eligible-funds error and
appends no ledger entries and touches no request, but the Trade row has
already been persisted before the eligibility check and stays. -/
theorem record_trade_abort_keeps_trade (s : DBState) (d : Nat) (a : String)
    (pnl charges : ℚ) (cm : String) (h : trade_total_eligible s d ≤ 0) :
    (record_trade s d a pnl charges cm).2 = false ∧
    (record_trade s d a pnl charges cm).1.transactions = s.transactions ∧
    (record_trade s d a pnl charges cm).1.requests = s.requests ∧
    (record_trade s d a pnl charges cm).1.trades
      = s.trades ++ [recordedTrade d a pnl charges cm] := by
  simp [record_trade, h]

/-- Witness for the amended C2 on the empty store. -/
theorem record_trade_abort_keeps_trade_witness :
    trade_total_eligible S0 1 ≤ 0 ∧
    ((record_trade S0 1 "GOLD" 10 0 "").2 = false ∧
      (record_trade S0 1 "GOLD" 10 0 "").1.transactions = S0.transactions ∧
      (record_trade S0 1 "GOLD" 10 0 "").1.requests = S0.requests ∧
      (record_trade S0 1 "GOLD" 10 0 "").1.trades
        = S0.trades ++ [recordedTrade 1 "GOLD" 10 0 ""]) :=
  ⟨le_refl 0, record_trade_abort_keeps_trade S0 1 "GOLD" 10 0 "" (le_refl 0)⟩

/-- C3: for a recorded trade and for an edited trade, net P&L is gross
P&L minus charges, the commission is three tenths of the net P&L when
the net P&L is positive and zero otherwise, and the net profit after
commission is the net P&L minus the commission. -/
theorem trade_commission_rule (d : Nat) (a : String) (pnl charges : ℚ)
    (cm : String) :
    (recordedTrade d a pnl charges cm).net_pnl = pnl - charges ∧
    (recordedTrade d a pnl charges cm).commission
      = (if 0 < pnl - charges then (3 / 10) * (pnl - charges) else 0) ∧
    (recordedTrade d a pnl charges cm).net_profit_after_commission
      = (recordedTrade d a pnl charges cm).net_pnl
        - (recordedTrade d a pnl charges cm).commission ∧
    (editedTrade d a pnl charges cm).commission
      = (if 0 < pnl - charges then (3 / 10) * (pnl - charges) else 0) ∧
    (editedTrade d a pnl charges cm).net_profit_after_commission
      = (editedTrade d a pnl charges cm).net_pnl
        - (editedTrade d a pnl charges cm).commission :=
  ⟨rfl, rfl, rfl, rfl, rfl⟩

/-- C7: when the gross P&L is not supplied but quantity, entry price and
exit price are, the derived P&L is exit minus entry times quantity for a
long trade and entry minus exit times quantity for a short trade. -/
theorem compute_trade_pnl_long_short (q en ex : ℚ) :
    compute_trade_pnl none "long" (some q) (some en) (some ex)
      = some ((ex - en) * q) ∧
    compute_trade_pnl none "short" (some q) (some en) (some ex)
      = some ((en - ex) * q) := by
  constructor
  · simp [compute_trade_pnl]
  · simp [compute_trade_pnl]

/-- C9: rejecting a withdrawal request only rewrites that request row
(status, resolution date, admin comment); the ledger, the contributors
and the trades are untouched, so every eligible balance and the total
fund are unchanged by a rejection. -/
theorem reject_withdrawal_frame (s : DBState) (rid today : Nat) (cm : String) :
    (reject_withdrawal s rid today cm).transactions = s.transactions ∧
    (reject_withdrawal s rid today cm).contributors = s.contributors ∧
    (reject_withdrawal s rid today cm).trades = s.trades ∧
    (∀ c d, get_eligible_balance (reject_withdrawal s rid today cm) c d
        = get_eligible_balance s c d) ∧
    (∀ d, get_total_fund (reject_withdrawal s rid today cm) d
        = get_total_fund s d) ∧
    (reject_withdrawal s rid today cm).requests
      = s.requests.map (fun r =>
          if r.id = rid then resolve_request_row r "rejected" today cm
          else r) :=
  ⟨rfl, rfl, rfl, fun _ _ => rfl, fun _ => rfl, rfl⟩

/-- C10: approving a request id that matches no stored request leaves
the whole store unchanged (the status update matches zero rows and the
lookup finds nothing), and the operation, modelled as a total function,
completes with no error outcome. -/
theorem approve_withdrawal_missing_id (s : DBState) (rid today : Nat)
    (cm : String) (h : ∀ r ∈ s.requests, r.id ≠ rid) :
    approve_withdrawal s rid today cm = s := by
  have hupd : update_withdrawal_request s rid "approved" today cm = s := by
    unfold update_withdrawal_request
    have hmap : (s.requests.map (fun r =>
        if r.id = rid then resolve_request_row r "approved" today cm
        else r)) = s.requests := by
      conv_rhs => rw [← List.map_id s.requests]
      exact List.map_congr_left (fun r hr => by simp [h r hr])
    rw [hmap]
  have hfind : s.requests.find? (fun r => r.id == rid) = none :=
    List.find?_eq_none.mpr (fun r hr => by simp [h r hr])
  simp only [approve_withdrawal, hupd, hfind]

/-- Witness for C10: request id 99 is absent from the concrete store. -/
theorem approve_withdrawal_missing_id_witness :
    (∀ r ∈ Wstate.requests, r.id ≠ 99) ∧
    approve_withdrawal Wstate 99 5 "" = Wstate :=
  ⟨by decide, approve_withdrawal_missing_id Wstate 99 5 "" (by decide)⟩

/-- A pointwise update of keys not present in a list does not change the
mapped images. -/
theorem map_ite_add_of_not_mem (ks : List Nat) (k : Nat) (hk : k ∉ ks)
    (a : ℚ) (g : Nat → ℚ) :
    ks.map (fun x => if x = k then a + g x else g x) = ks.map g := by
  induction ks with
  | nil => rfl
  | cons y ys ih =>
      rw [List.map_cons, List.map_cons,
        if_neg (fun hyk => hk (by rw [← hyk]; exact List.mem_cons_self y ys)),
        ih (fun hmem => hk (List.mem_cons_of_mem y hmem))]

/-- Adding an amount onto the image of one present key adds that amount
to the total, when the keys are distinct. -/
theorem sum_map_ite_add (ks : List Nat) (k : Nat) (hk : k ∈ ks)
    (hnd : ks.Nodup) (a : ℚ) (g : Nat → ℚ) :
    (ks.map (fun x => if x = k then a + g x else g x)).sum
      = a + (ks.map g).sum := by
  induction ks with
  | nil => cases hk
  | cons y ys ih =>
      rw [List.map_cons, List.sum_cons, List.map_cons, List.sum_cons]
      rcases List.mem_cons.mp hk with h | h
      · subst h
        rw [if_pos rfl,
          map_ite_add_of_not_mem ys k (List.nodup_cons.mp hnd).1, add_assoc]
      · have hyk : ¬ y = k := fun e => (List.nodup_cons.mp hnd).1 (e ▸ h)
        rw [if_neg hyk, ih h (List.nodup_cons.mp hnd).2]
        ring

/-- Partitioning a ledger by contributor id covers every entry exactly
once when the listed ids are distinct and every entry carries a listed
id: the per-id sums add up to the global sum. -/
theorem sum_fiber_amounts (l : List Txn) (ks : List Nat) (hnd : ks.Nodup)
    (hwf : ∀ t ∈ l, t.contributor_id ∈ ks) :
    (ks.map (fun k =>
        ((l.filter (fun t => decide (t.contributor_id = k))).map
          Txn.amount).sum)).sum
      = (l.map Txn.amount).sum := by
  induction l with
  | nil => simp
  | cons t l ih =>
      have ht : t.contributor_id ∈ ks := hwf t (List.mem_cons_self t l)
      have hrest : ∀ x ∈ l, x.contributor_id ∈ ks :=
        fun x hx => hwf x (List.mem_cons_of_mem t hx)
      have hmap : ks.map (fun k =>
            (((t :: l).filter (fun x => decide (x.contributor_id = k))).map
              Txn.amount).sum)
          = ks.map (fun k =>
            if k = t.contributor_id then
              t.amount + ((l.filter (fun x =>
                decide (x.contributor_id = k))).map Txn.amount).sum
            else ((l.filter (fun x =>
              decide (x.contributor_id = k))).map Txn.amount).sum) := by
        refine List.map_congr_left (fun k hk => ?_)
        by_cases h : k = t.contributor_id
        · subst h
          simp [List.filter_cons]
        · have h2 : ¬ t.contributor_id = k := fun e => h e.symm
          simp [List.filter_cons, h, h2]
      rw [hmap, sum_map_ite_add ks t.contributor_id ht hnd t.amount
        (fun k => ((l.filter (fun x =>
          decide (x.contributor_id = k))).map Txn.amount).sum),
        ih hrest, List.map_cons, List.sum_cons]

/-- The eligibility query is the contributor fiber of the date-filtered
ledger underlying the total-fund query. -/
theorem get_eligible_balance_fiber (s : DBState) (k d : Nat) :
    get_eligible_balance s k d
      = (((s.transactions.filter (fun t => decide (t.date ≤ d))).filter
          (fun t => decide (t.contributor_id = k))).map Txn.amount).sum := by
  have hfe : s.transactions.filter
        (fun t => decide (t.contributor_id = k ∧ t.date ≤ d))
      = (s.transactions.filter (fun t => decide (t.date ≤ d))).filter
          (fun t => decide (t.contributor_id = k)) := by
    rw [List.filter_filter]
    refine List.filter_congr (fun t ht => ?_)
    by_cases h1 : t.contributor_id = k <;> by_cases h2 : t.date ≤ d <;>
      simp [h1, h2]
  unfold get_eligible_balance
  rw [hfe]

/-- Summing the eligible balances over all contributors gives the total
fund, provided contributor ids are distinct and every ledger entry
belongs to a listed contributor (the foreign key of the schema). -/
theorem sum_eligible_eq_total_fund (s : DBState) (d : Nat)
    (hnd : (s.contributors.map Contributor.id).Nodup)
    (hwf : ∀ t ∈ s.transactions,
      t.contributor_id ∈ s.contributors.map Contributor.id) :
    (s.contributors.map (fun c => get_eligible_balance s c.id d)).sum
      = get_total_fund s d := by
  have hwf2 : ∀ t ∈ s.transactions.filter (fun t => decide (t.date ≤ d)),
      t.contributor_id ∈ s.contributors.map Contributor.id :=
    fun t ht => hwf t (List.mem_of_mem_filter ht)
  have h1 : s.contributors.map (fun c => get_eligible_balance s c.id d)
      = (s.contributors.map Contributor.id).map (fun k =>
          (((s.transactions.filter (fun t => decide (t.date ≤ d))).filter
            (fun t => decide (t.contributor_id = k))).map Txn.amount).sum) := by
    rw [List.map_map]
    exact List.map_congr_left (fun c hc => get_eligible_balance_fiber s c.id d)
  rw [h1, sum_fiber_amounts _ _ hnd hwf2]
  rfl

/-- C5: the eligible balance of a contributor as of a date is the sum of
that contributor's ledger amounts dated at or before it, zero when there
are no such entries, and the total fund equals the sum of the eligible
balances over all contributors. -/
theorem eligible_balance_and_total_fund (s : DBState) (k d : Nat)
    (hnd : (s.contributors.map Contributor.id).Nodup)
    (hwf : ∀ t ∈ s.transactions,
      t.contributor_id ∈ s.contributors.map Contributor.id) :
    get_eligible_balance s k d
      = ((s.transactions.filter (fun t =>
          decide (t.contributor_id = k ∧ t.date ≤ d))).map Txn.amount).sum ∧
    ((∀ t ∈ s.transactions, ¬ (t.contributor_id = k ∧ t.date ≤ d)) →
      get_eligible_balance s k d = 0) ∧
    get_total_fund s d
      = (s.contributors.map (fun c => get_eligible_balance s c.id d)).sum := by
  refine ⟨rfl, ?_, (sum_eligible_eq_total_fund s d hnd hwf).symm⟩
  intro hnone
  unfold get_eligible_balance
  have hfil : s.transactions.filter (fun t =>
      decide (t.contributor_id = k ∧ t.date ≤ d)) = [] := by
    refine List.filter_eq_nil_iff.mpr (fun t ht => ?_)
    simp [hnone t ht]
  rw [hfil]
  rfl

/-- Witness for C5 on the concrete store. -/
theorem eligible_balance_and_total_fund_witness :
    (Wstate.contributors.map Contributor.id).Nodup ∧
    (∀ t ∈ Wstate.transactions,
      t.contributor_id ∈ Wstate.contributors.map Contributor.id) ∧
    (get_eligible_balance Wstate 1 5
        = ((Wstate.transactions.filter (fun t =>
            decide (t.contributor_id = 1 ∧ t.date ≤ 5))).map Txn.amount).sum ∧
      ((∀ t ∈ Wstate.transactions, ¬ (t.contributor_id = 1 ∧ t.date ≤ 5)) →
        get_eligible_balance Wstate 1 5 = 0) ∧
      get_total_fund Wstate 5
        = (Wstate.contributors.map
            (fun c => get_eligible_balance Wstate c.id 5)).sum) :=
  ⟨by decide, by decide,
    eligible_balance_and_total_fund Wstate 1 5 (by decide) (by decide)⟩

/-- C4: a fund-wide withdrawal aborts with the no-funds error and writes
nothing when the total fund as of the date is not positive; otherwise it
appends one withdrawal entry per contributor, of amount minus that
contributor's proportional share of the requested amount, and the
distributed shares sum exactly to the requested amount. -/
theorem withdraw_money_spec (s : DBState) (d : Nat) (W : ℚ) (cm : String)
    (hnd : (s.contributors.map Contributor.id).Nodup)
    (hwf : ∀ t ∈ s.transactions,
      t.contributor_id ∈ s.contributors.map Contributor.id) :
    (get_total_fund s d ≤ 0 →
      (withdraw_money s d W cm).2 = false ∧ (withdraw_money s d W cm).1 = s) ∧
    (0 < get_total_fund s d →
      (withdraw_money s d W cm).2 = true ∧
      ((withdraw_money s d W cm).1.transactions.drop s.transactions.length
        = s.contributors.map (fun c =>
            { contributor_id := c.id, date := d, txn_type := "withdrawal",
              amount := -((get_eligible_balance s c.id d / get_total_fund s d) * W),
              asset := "", allocated_charges := 0, comment := cm : Txn })) ∧
      (((withdraw_money s d W cm).1.transactions.drop
          s.transactions.length).map (fun t => -t.amount)).sum = W) := by
  constructor
  · intro h
    constructor
    · simp [withdraw_money, h]
    · simp [withdraw_money, h]
  · intro h
    have hif : ¬ get_total_fund s d ≤ 0 := not_le.mpr h
    have hne : get_total_fund s d ≠ 0 := ne_of_gt h
    have hdrop : (withdraw_money s d W cm).1.transactions.drop
        s.transactions.length
        = s.contributors.map (fun c =>
            { contributor_id := c.id, date := d, txn_type := "withdrawal",
              amount := -((get_eligible_balance s c.id d / get_total_fund s d) * W),
              asset := "", allocated_charges := 0, comment := cm : Txn }) := by
      simp [withdraw_money, hif, h, List.drop_left]
    refine ⟨by simp [withdraw_money, hif], hdrop, ?_⟩
    rw [hdrop, List.map_map]
    simp only [Function.comp_def, neg_neg]
    rw [sum_map_ratio s.contributors (fun c => get_eligible_balance s c.id d)
      (get_total_fund s d) W,
      sum_eligible_eq_total_fund s d hnd hwf, div_self hne, one_mul]

/-- Witness for C4 on the concrete store: total fund 1000, withdrawal of
300, shares 180 and 120 summing to 300. -/
theorem withdraw_money_spec_witness :
    (Wstate.contributors.map Contributor.id).Nodup ∧
    (∀ t ∈ Wstate.transactions,
      t.contributor_id ∈ Wstate.contributors.map Contributor.id) ∧
    ((get_total_fund Wstate 2 ≤ 0 →
      (withdraw_money Wstate 2 300 "").2 = false ∧
        (withdraw_money Wstate 2 300 "").1 = Wstate) ∧
    (0 < get_total_fund Wstate 2 →
      (withdraw_money Wstate 2 300 "").2 = true ∧
      ((withdraw_money Wstate 2 300 "").1.transactions.drop
          Wstate.transactions.length
        = Wstate.contributors.map (fun c =>
            { contributor_id := c.id, date := 2, txn_type := "withdrawal",
              amount := -((get_eligible_balance Wstate c.id 2
                / get_total_fund Wstate 2) * 300),
              asset := "", allocated_charges := 0, comment := "" : Txn })) ∧
      (((withdraw_money Wstate 2 300 "").1.transactions.drop
          Wstate.transactions.length).map (fun t => -t.amount)).sum = 300)) :=
  ⟨by decide, by decide, withdraw_money_spec Wstate 2 300 "" (by decide) (by decide)⟩

/-- C8: the eligible balance changes only at dates carrying an entry for
the contributor: when no entry of that contributor is dated strictly
after the first date and at or before the second, the balances as of the
two dates agree. -/
theorem eligible_balance_constant_between (s : DBState) (c d1 d2 : Nat)
    (h12 : d1 < d2)
    (hno : ∀ t ∈ s.transactions, t.contributor_id = c →
      ¬ (d1 < t.date ∧ t.date ≤ d2)) :
    get_eligible_balance s c d2 = get_eligible_balance s c d1 := by
  unfold get_eligible_balance
  have hfil : s.transactions.filter (fun t =>
        decide (t.contributor_id = c ∧ t.date ≤ d2))
      = s.transactions.filter (fun t =>
        decide (t.contributor_id = c ∧ t.date ≤ d1)) := by
    refine List.filter_congr (fun t ht => ?_)
    by_cases hc : t.contributor_id = c
    · by_cases hle : t.date ≤ d1
      · simp [hc, hle, le_trans hle (le_of_lt h12)]
      · have h2 : ¬ t.date ≤ d2 :=
          fun hle2 => hno t ht hc ⟨not_le.mp hle, hle2⟩
        simp [hc, hle, h2]
    · simp [hc]
  rw [hfil]

/-- Witness for C8: no entry of contributor 1 lies strictly between day
1 and day 2, so the balances as of the two days agree. -/
theorem eligible_balance_constant_between_witness :
    1 < 2 ∧
    (∀ t ∈ Wstate.transactions, t.contributor_id = 1 →
      ¬ (1 < t.date ∧ t.date ≤ 2)) ∧
    get_eligible_balance Wstate 1 2 = get_eligible_balance Wstate 1 1 :=
  ⟨by decide, by decide,
    eligible_balance_constant_between Wstate 1 1 2 (by decide) (by decide)⟩

/-- Looking up the updated id after a keyed update returns the updated
row, when the ids are distinct, the row is present and the update keeps
the id. -/
theorem find_after_keyed_update (rs : List WithdrawalRequest)
    (r : WithdrawalRequest) (f : WithdrawalRequest → WithdrawalRequest)
    (hr : r ∈ rs) (hnd : (rs.map WithdrawalRequest.id).Nodup)
    (hid : ∀ q, (f q).id = q.id) :
    (rs.map (fun q => if q.id = r.id then f q else q)).find?
        (fun q => q.id == r.id) = some (f r) := by
  induction rs with
  | nil => cases hr
  | cons x xs ih =>
      rw [List.map_cons] at hnd
      rw [List.map_cons]
      rcases List.mem_cons.mp hr with h | h
      · subst h
        rw [if_pos rfl]
        exact List.find?_cons_of_pos _ (by simp [hid])
      · have hx : ¬ x.id = r.id := by
          intro e
          exact (List.nodup_cons.mp hnd).1
            (e ▸ List.mem_map_of_mem WithdrawalRequest.id h)
        rw [if_neg hx, List.find?_cons_of_neg _ (by simp [hx])]
        exact ih h (List.nodup_cons.mp hnd).2

/-- C6: approving a pending withdrawal request appends exactly one
withdrawal ledger entry, of the negated requested amount, dated at the
approval date and attributed to the requesting contributor only; the
request becomes approved and carries the resolution date; every other
contributor's eligible balance is unchanged. -/
theorem approve_withdrawal_pending (s : DBState) (r : WithdrawalRequest)
    (today : Nat) (cm : String) (hr : r ∈ s.requests)
    (hp : r.status = "pending")
    (hnd : (s.requests.map WithdrawalRequest.id).Nodup) :
    (approve_withdrawal s r.id today cm).transactions
      = s.transactions ++
        [{ contributor_id := r.contributor_id, date := today,
           txn_type := "withdrawal", amount := -r.amount, asset := "",
           allocated_charges := 0, comment := "Withdrawal Approved" }] ∧
    (approve_withdrawal s r.id today cm).requests.find?
        (fun q => q.id == r.id)
      = some (resolve_request_row r "approved" today cm) ∧
    (∀ c d, c ≠ r.contributor_id →
      get_eligible_balance (approve_withdrawal s r.id today cm) c d
        = get_eligible_balance s c d) := by
  have hfind : ((update_withdrawal_request s r.id "approved" today
        cm).requests).find? (fun q => q.id == r.id)
      = some (resolve_request_row r "approved" today cm) :=
    find_after_keyed_update s.requests r
      (fun q => resolve_request_row q "approved" today cm)
      hr hnd (fun q => rfl)
  have happ : approve_withdrawal s r.id today cm
      = { (update_withdrawal_request s r.id "approved" today cm) with
          transactions := s.transactions ++
            [{ contributor_id := r.contributor_id
               date := today
               txn_type := "withdrawal"
               amount := -r.amount
               asset := ""
               allocated_charges := 0
               comment := "Withdrawal Approved" }] } := by
    simp only [approve_withdrawal]
    rw [hfind]
    rfl
  refine ⟨by rw [happ], by rw [happ]; exact hfind, ?_⟩
  intro c d hcd
  have htx : (approve_withdrawal s r.id today cm).transactions
      = s.transactions ++
        [{ contributor_id := r.contributor_id, date := today,
           txn_type := "withdrawal", amount := -r.amount, asset := "",
           allocated_charges := 0, comment := "Withdrawal Approved" }] := by
    rw [happ]
  unfold get_eligible_balance
  rw [htx, List.filter_append]
  have hsingle : ([{ contributor_id := r.contributor_id, date := today,
                     txn_type := "withdrawal", amount := -r.amount,
                     asset := "", allocated_charges := 0,
                     comment := "Withdrawal Approved" : Txn }].filter
      (fun t => decide (t.contributor_id = c ∧ t.date ≤ d))) = [] := by
    simp [Ne.symm hcd]
  rw [hsingle, List.append_nil]

/-- Witness for C6: the pending request of the concrete store, approved
on day 4, books exactly one entry of minus 150 to contributor 1. -/
theorem approve_withdrawal_pending_witness :
    ({ id := 1, contributor_id := 1, request_date := 3, amount := 150,
       comment := "", status := "pending", approved_date := none,
       admin_comment := none : WithdrawalRequest } ∈ Wstate.requests) ∧
    (({ id := 1, contributor_id := 1, request_date := 3, amount := 150,
        comment := "", status := "pending", approved_date := none,
        admin_comment := none : WithdrawalRequest }).status = "pending") ∧
    (Wstate.requests.map WithdrawalRequest.id).Nodup ∧
    ((approve_withdrawal Wstate 1 4 "ok").transactions
      = Wstate.transactions ++
        [{ contributor_id := 1, date := 4, txn_type := "withdrawal",
           amount := -(150 : ℚ), asset := "", allocated_charges := 0,
           comment := "Withdrawal Approved" }] ∧
    (approve_withdrawal Wstate 1 4 "ok").requests.find? (fun q => q.id == 1)
      = some (resolve_request_row
          { id := 1, contributor_id := 1, request_date := 3, amount := 150,
            comment := "", status := "pending", approved_date := none,
            admin_comment := none } "approved" 4 "ok") ∧
    (∀ c d, c ≠ 1 →
      get_eligible_balance (approve_withdrawal Wstate 1 4 "ok") c d
        = get_eligible_balance Wstate c d)) :=
  ⟨by decide, by decide, by decide,
    approve_withdrawal_pending Wstate
      { id := 1, contributor_id := 1, request_date := 3, amount := 150,
        comment := "", status := "pending", approved_date := none,
        admin_comment := none }
      4 "ok" (by decide) (by decide) (by decide)⟩
